import Mathlib

/-!
Shallow embedding of `src/integrations/test-gitlab/client.py` (class
`GitLabHandler`): the rate-limited paginated fetch loop
(`_rate_limited_request`), the recursive group enumeration (`fetch_groups`),
and the per-kind normalizers inside `fetch_projects`, `fetch_merge_requests`
and `fetch_issues`.

Modelling conventions:
* JSON values are `JValue`; a decoded JSON object is an association list
  (`RawRecord`), looked up with `List.lookup` (Python dict access).
* Python exceptions are the error side of `Except PyErr`:
  `d[k]` on a missing key is `.keyError k`, `raise_for_status` on a non-2xx
  response is `.httpStatusError`, `None.get(...)` is `.attributeError`,
  exceeding the interpreter recursion limit is `.recursionError`.
* The upstream host is a finite script of `Response`s consumed one per
  issued request; a run that still awaits a response when the script is
  exhausted ends in `.scriptExhausted` (model artifact standing for a run
  that keeps waiting on the network).
* The loop also returns the trace of `Event`s it caused: each HTTP request
  (endpoint, page token embedded in the URL, the `params` argument passed to
  the client) and each `asyncio.sleep` with its duration.
-/

/-- A JSON value as decoded from a response body. -/
inductive JValue where
  | null
  | bool (b : Bool)
  | num (n : Int)
  | str (s : String)
  | arr (xs : List JValue)
  | obj (fields : List (String × JValue))

/-- One decoded JSON object: what the Python code treats as a dict. -/
def RawRecord := List (String × JValue)

/-- Python exceptions the client code can raise, plus the script-exhaustion
model artifact. -/
inductive PyErr where
  | keyError (k : String)
  | typeError
  | attributeError
  | valueError
  | httpStatusError (status : Nat)
  | recursionError
  | scriptExhausted
deriving DecidableEq

/-- Python `d[k]`: the value under `k`, or a `KeyError`. -/
def pyIndex (r : RawRecord) (k : String) : Except PyErr JValue :=
  match List.lookup k r with
  | some v => .ok v
  | none => .error (.keyError k)

/-- Python `d.get(k)`: `None` when the key is absent. -/
def pyGet (r : RawRecord) (k : String) : JValue :=
  (List.lookup k r).getD .null

/-- A Python list comprehension over a fallible element mapping: either every
element maps and the whole list is returned, or the first failure aborts the
comprehension with no partial output. -/
def mapExcept (f : α → Except PyErr β) : List α → Except PyErr (List β)
  | [] => .ok []
  | a :: as => do
    let b ← f a
    let bs ← mapExcept f as
    pure (b :: bs)

/-- Configuration held by a constructed `GitLabHandler`. -/
structure Handler where
  apiUrl : String
  token : String
  rateLimit : Int
  rateLimitPeriod : Int

/-- `GitLabHandler.__init__`: stores the configuration, then raises
`ValueError` when the token is falsy (`None` or the empty string).
`rateLimit`/`rateLimitPeriod` stand for the module-level `RATE_LIMIT` and
`RATE_LIMIT_PERIOD` configuration values. -/
def mkGitLabHandler (apiUrl : String) (token : Option String)
    (rateLimit rateLimitPeriod : Int) : Except PyErr Handler :=
  match token with
  | none => .error .valueError
  | some t => if t = "" then .error .valueError
              else .ok ⟨apiUrl, t, rateLimit, rateLimitPeriod⟩

/-- One scripted upstream HTTP response: status code, decoded JSON body
(a list of records), and the optional `X-Next-Page` header. -/
structure Response where
  status : Nat
  body : List RawRecord
  nextPage : Option String

/-- An observable effect of the fetch loop: an issued GET (endpoint, the
`page` token embedded in the request URL if any, and the `params` argument
passed to the HTTP client), or an `asyncio.sleep` of the given duration. -/
inductive Event where
  | request (endpoint : String) (page : Option String) (params : List (String × String))
  | sleep (seconds : Int)
deriving DecidableEq

/-- httpx `Response.is_success`: the 2xx range, the statuses
`raise_for_status` accepts. -/
def isSuccess (s : Nat) : Bool := 200 ≤ s && s < 300

/-- The `while url:` loop body of `GitLabHandler._rate_limited_request`,
consuming one scripted response per issued request. State carried across
iterations: the `page` token of the current URL (`none` on the first URL,
which is bare `api_url + endpoint`) and the accumulator `all_data`. On a 429
the code sleeps `rate_limit_period` seconds and retries the same URL with the
same `params`; on any other non-2xx `raise_for_status` raises; on success the
body is appended and the `X-Next-Page` header (when truthy) becomes the
`page=` query of the next URL, with the same `params` argument passed again. -/
def rlrLoop (h : Handler) (endpoint : String) (params : List (String × String)) :
    List Response → Option String → List RawRecord →
    List Event × Except PyErr (List RawRecord)
  | [], _, _ => ([], .error .scriptExhausted)
  | r :: rest, page, acc =>
    let ev := Event.request endpoint page params
    if r.status == 429 then
      let next := rlrLoop h endpoint params rest page acc
      (ev :: Event.sleep h.rateLimitPeriod :: next.1, next.2)
    else if isSuccess r.status then
      let acc' := acc ++ r.body
      match r.nextPage with
      | some tok =>
        if tok = "" then ([ev], .ok acc')
        else
          let next := rlrLoop h endpoint params rest (some tok) acc'
          (ev :: next.1, next.2)
      | none => ([ev], .ok acc')
    else ([ev], .error (.httpStatusError r.status))

/-- `GitLabHandler._rate_limited_request(endpoint, params)` run against a
response script: starts at the bare endpoint URL with an empty accumulator. -/
def rateLimitedRequest (h : Handler) (endpoint : String)
    (params : List (String × String)) (script : List Response) :
    List Event × Except PyErr (List RawRecord) :=
  rlrLoop h endpoint params script none []

/-- One successful upstream page: its records and the optional
`X-Next-Page` header value. -/
structure Page where
  records : List RawRecord
  next : Option String

/-- Python truthiness of the `X-Next-Page` header value: absent and the empty
string are falsy. -/
def truthyTok : Option String → Bool
  | none => false
  | some s => !(s = "")

/-- A page sequence as the upstream hands it out: at least one page, every
page before the last carries a truthy continuation token, the last does not. -/
def chainedPages : List Page → Bool
  | [] => false
  | [p] => !(truthyTok p.next)
  | p :: q :: rest => truthyTok p.next && chainedPages (q :: rest)

/-- The response script of a sequence of successful (HTTP 200) pages. -/
def mkScript (ps : List Page) : List Response :=
  ps.map fun p => ⟨200, p.records, p.next⟩

/-- The normalizer inside `fetch_groups`'s loop body, building one canonical
group dict: `id`, `name`, `web_url` are required (`group[...]`),
`description` and `visibility` optional (`group.get(...)`). -/
def canonGroup (g : RawRecord) : Except PyErr RawRecord := do
  let idv ← pyIndex g "id"
  let namev ← pyIndex g "name"
  let urlv ← pyIndex g "web_url"
  pure [("identifier", idv), ("name", namev), ("url", urlv),
        ("description", pyGet g "description"),
        ("visibility", pyGet g "visibility")]

/-- The per-project dict built inside `fetch_projects`: `id`, `name`,
`web_url` and also `description` are read with `project[...]` (KeyError when
absent); the namespace path is `project.get("namespace", {}).get("full_path")`
-- absent key yields `None` via the `{}` default, a present non-dict value
(e.g. JSON null) has no `.get` and raises `AttributeError`. -/
def canonProject (p : RawRecord) : Except PyErr RawRecord := do
  let idv ← pyIndex p "id"
  let namev ← pyIndex p "name"
  let urlv ← pyIndex p "web_url"
  let descv ← pyIndex p "description"
  let nsv ←
    match List.lookup "namespace" p with
    | none => Except.ok JValue.null
    | some (.obj o) => Except.ok (((List.lookup "full_path" o)).getD .null)
    | some _ => Except.error PyErr.attributeError
  pure [("identifier", idv), ("name", namev), ("url", urlv),
        ("description", descv), ("namespace", nsv)]

/-- `reviewer["username"]` for one element of the `reviewers` list: anything
but a dict cannot be indexed by a string key. -/
def reviewerName (v : JValue) : Except PyErr JValue :=
  match v with
  | .obj o => pyIndex o "username"
  | _ => .error .typeError

/-- The per-merge-request dict built inside `fetch_merge_requests`:
required accesses `mr["id"]`, `mr["title"]`, `mr["state"]`,
`mr["author"]["username"]`, `mr["created_at"]`, `mr["updated_at"]`,
`mr["web_url"]`; `mr.get("merged_at")` optional;
`[reviewer["username"] for reviewer in mr.get("reviewers", [])]` maps the
optional reviewers list. -/
def canonMergeRequest (m : RawRecord) : Except PyErr RawRecord := do
  let idv ← pyIndex m "id"
  let titlev ← pyIndex m "title"
  let statev ← pyIndex m "state"
  let authorv ← pyIndex m "author"
  let authoru ←
    match authorv with
    | .obj o => pyIndex o "username"
    | _ => Except.error PyErr.typeError
  let createdv ← pyIndex m "created_at"
  let updatedv ← pyIndex m "updated_at"
  let linkv ← pyIndex m "web_url"
  let revs ←
    match List.lookup "reviewers" m with
    | none => Except.ok []
    | some (.arr xs) => mapExcept reviewerName xs
    | some _ => Except.error PyErr.typeError
  pure [("identifier", idv), ("title", titlev), ("status", statev),
        ("author", authoru), ("createdAt", createdv), ("updatedAt", updatedv),
        ("mergedAt", pyGet m "merged_at"), ("link", linkv),
        ("reviewers", .arr revs)]

/-- The per-issue dict built inside `fetch_issues`: required accesses
`issue["id"]`, `issue["title"]`, `issue["state"]`,
`issue["author"]["username"]`, `issue["created_at"]`, `issue["updated_at"]`,
`issue["web_url"]`; `issue.get("closed_at")` and `issue.get("labels", [])`
optional, the labels value passed through unchanged. -/
def canonIssue (i : RawRecord) : Except PyErr RawRecord := do
  let idv ← pyIndex i "id"
  let titlev ← pyIndex i "title"
  let statev ← pyIndex i "state"
  let authorv ← pyIndex i "author"
  let authoru ←
    match authorv with
    | .obj o => pyIndex o "username"
    | _ => Except.error PyErr.typeError
  let createdv ← pyIndex i "created_at"
  let updatedv ← pyIndex i "updated_at"
  let linkv ← pyIndex i "web_url"
  pure [("identifier", idv), ("title", titlev), ("status", statev),
        ("author", authoru), ("createdAt", createdv), ("updatedAt", updatedv),
        ("closedAt", pyGet i "closed_at"), ("link", linkv),
        ("labels", (List.lookup "labels" i).getD (.arr []))]

/-- The list comprehension of `fetch_projects` over the fetched data. -/
def normalizeProjects (data : List RawRecord) : Except PyErr (List RawRecord) :=
  mapExcept canonProject data

/-- The list comprehension of `fetch_merge_requests` over the fetched data. -/
def normalizeMergeRequests (data : List RawRecord) : Except PyErr (List RawRecord) :=
  mapExcept canonMergeRequest data

/-- The list comprehension of `fetch_issues` over the fetched data. -/
def normalizeIssues (data : List RawRecord) : Except PyErr (List RawRecord) :=
  mapExcept canonIssue data

/-- `GitLabHandler.fetch_projects` against a response script: paginated fetch
of `/projects` with `params = {"per_page": self.rate_limit}`, then the
normalizing comprehension. -/
def fetchProjects (h : Handler) (script : List Response) :
    Except PyErr (List RawRecord) := do
  let data ← (rateLimitedRequest h "/projects"
      [("per_page", toString h.rateLimit)] script).2
  normalizeProjects data

/-- `GitLabHandler.fetch_merge_requests` against a response script. -/
def fetchMergeRequests (h : Handler) (script : List Response) :
    Except PyErr (List RawRecord) := do
  let data ← (rateLimitedRequest h "/merge_requests"
      [("scope", "all"), ("per_page", toString h.rateLimit)] script).2
  normalizeMergeRequests data

/-- `GitLabHandler.fetch_issues` against a response script. -/
def fetchIssues (h : Handler) (script : List Response) :
    Except PyErr (List RawRecord) := do
  let data ← (rateLimitedRequest h "/issues"
      [("scope", "all"), ("per_page", toString h.rateLimit)] script).2
  normalizeIssues data

/-- The endpoint choice of `fetch_groups`:
`"/groups" if not parent_id else f"/groups/.../subgroups"` -- Python
truthiness makes both `None` and `0` select the top-level endpoint. -/
def groupsEndpoint : Option Int → String
  | none => "/groups"
  | some n => if n = 0 then "/groups"
              else "/groups/" ++ toString n ++ "/subgroups"

/-- `group.get("subgroup_count", 0) > 0` needs an integer on the left of the
comparison: absent key defaults to `0`; a present non-numeric value would
make the Python comparison raise `TypeError`. -/
def subgroupHint (g : RawRecord) : Except PyErr Int :=
  match List.lookup "subgroup_count" g with
  | none => .ok 0
  | some (.num k) => .ok k
  | some _ => .error .typeError

/-- The `for group in data:` loop of `fetch_groups`: append the canonical
dict, then, when the subgroup-count hint is positive, recursively fetch the
subgroups of `group["id"]` (via `child`) and splice them in before moving to
the next sibling. -/
def groupsLoop (child : Int → Except PyErr (List RawRecord)) :
    List RawRecord → Except PyErr (List RawRecord)
  | [] => .ok []
  | g :: gs => do
    let c ← canonGroup g
    let hint ← subgroupHint g
    let sub ←
      if 0 < hint then do
        let idv ← pyIndex g "id"
        match idv with
        | .num k => child k
        | _ => Except.error PyErr.typeError
      else pure []
    let rest ← groupsLoop child gs
    pure (c :: (sub ++ rest))

/-- `GitLabHandler.fetch_groups(parent_id)`. The paginated transport is
abstracted by `env`: `env e` is the record list a successful
`_rate_limited_request(e)` returns. `fuel` is the Python recursion budget:
each nested `fetch_groups` call consumes one unit, and exhausting it is the
interpreter's `RecursionError` -- the code itself has no depth guard. -/
def fetchGroups (env : String → List RawRecord) :
    Nat → Option Int → Except PyErr (List RawRecord)
  | 0, _ => .error .recursionError
  | fuel + 1, parentId =>
    groupsLoop (fun k => fetchGroups env fuel (some k))
      (env (groupsEndpoint parentId))

/-- The upstream-visible data of one group: the fields `fetch_groups` reads
off a raw group record. `subgroupCount` is the `subgroup_count` hint. -/
structure GNode where
  id : Int
  name : String
  url : String
  descr : JValue
  vis : JValue
  subgroupCount : Int

/-- An upstream group hierarchy: a group and the trees of its subgroups. -/
inductive GTree where
  | node : GNode → List GTree → GTree

/-- The group data at the root of a tree. -/
def GTree.info : GTree → GNode
  | .node g _ => g

/-- The subgroup trees of a tree's root. -/
def GTree.children : GTree → List GTree
  | .node _ cs => cs

/-- The raw record the upstream returns for one group. -/
def gnodeRecord (g : GNode) : RawRecord :=
  [("id", .num g.id), ("name", .str g.name), ("web_url", .str g.url),
   ("description", g.descr), ("visibility", g.vis),
   ("subgroup_count", .num g.subgroupCount)]

/-- The raw record of a tree's root group. -/
def gtreeRecord (t : GTree) : RawRecord := gnodeRecord t.info

/-- The canonical dict `fetch_groups` builds for one group record. -/
def canonOfNode (g : GNode) : RawRecord :=
  [("identifier", .num g.id), ("name", .str g.name), ("url", .str g.url),
   ("description", g.descr), ("visibility", g.vis)]

mutual
/-- Modelled from the spec (§4.2 Hierarchical Group Enumerator): the
depth-first pre-order flattening of a group tree -- the group's canonical
record first, strictly before every descendant's record, and the subgroup
records included exactly when the group's subgroup-count hint is positive. -/
def specPreorderTree : GTree → List RawRecord
  | .node g cs =>
    canonOfNode g :: (if 0 < g.subgroupCount then specPreorderForest cs else [])
/-- Modelled from the spec: pre-order flattening of a forest, trees in
sibling order. -/
def specPreorderForest : List GTree → List RawRecord
  | [] => []
  | t :: ts => specPreorderTree t ++ specPreorderForest ts
end

mutual
/-- All subtrees of a tree, itself included. -/
def treeSubtrees : GTree → List GTree
  | .node g cs => .node g cs :: forestSubtrees cs
/-- All subtrees of the trees of a forest. -/
def forestSubtrees : List GTree → List GTree
  | [] => []
  | t :: ts => treeSubtrees t ++ forestSubtrees ts
end

mutual
/-- Height of a tree: nesting levels of `fetch_groups` needed below it. -/
def treeDepth : GTree → Nat
  | .node _ cs => forestDepth cs + 1
/-- Height of a forest: the largest height among its trees. -/
def forestDepth : List GTree → Nat
  | [] => 0
  | t :: ts => max (treeDepth t) (forestDepth ts)
end

/-- A handler with a fixed sample configuration (cooldown 60 seconds),
used to instantiate theorems at concrete inputs. -/
def hEx : Handler := ⟨"https://gitlab.example.com", "token", 10, 60⟩

/-- A minimal raw project-page record with the given id. -/
def pageRec (n : Int) : RawRecord := [("id", JValue.num n)]

/-- A follow-up request (one that carries a page token in its URL) issued
with a non-empty `params` argument -- exactly what the inherited design is
said never to do. -/
def followupWithParams : Event → Bool
  | .request _ (some _) (_ :: _) => true
  | _ => false

/-- A well-formed merge request record carrying every required field. -/
def mrOk : RawRecord :=
  [("id", .num 5), ("title", .str "t"), ("state", .str "opened"),
   ("author", .obj [("username", .str "alice")]),
   ("created_at", .str "2024-01-01T00:00:00Z"),
   ("updated_at", .str "2024-01-02T00:00:00Z"),
   ("web_url", .str "https://gitlab.example.com/mr/5")]

/-- A merge request record with no `author` field. -/
def mrNoAuthor : RawRecord :=
  [("id", .num 6), ("title", .str "t2"), ("state", .str "opened"),
   ("created_at", .str "2024-01-01T00:00:00Z"),
   ("updated_at", .str "2024-01-02T00:00:00Z"),
   ("web_url", .str "https://gitlab.example.com/mr/6")]

/-- A project record with every field of the mapping table's required column
(`id`, `name`, `url`) but no `description` key. -/
def projNoDesc : RawRecord :=
  [("id", .num 1), ("name", .str "proj"),
   ("web_url", .str "https://gitlab.example.com/proj")]

/-- A group record with required fields only. -/
def grpNoOpt : RawRecord :=
  [("id", .num 1), ("name", .str "grp"),
   ("web_url", .str "https://gitlab.example.com/grp")]

/-- A project record whose `description` key is present (null-valued) and
whose `namespace` key is absent. -/
def projWithDesc : RawRecord :=
  [("id", .num 2), ("name", .str "proj2"),
   ("web_url", .str "https://gitlab.example.com/proj2"),
   ("description", .null)]

/-- A merge request record with required fields only. -/
def mrNoOpt : RawRecord :=
  [("id", .num 3), ("title", .str "t"), ("state", .str "opened"),
   ("author", .obj [("username", .str "alice")]),
   ("created_at", .str "c"), ("updated_at", .str "d"),
   ("web_url", .str "w")]

/-- An issue record with required fields only. -/
def issNoOpt : RawRecord :=
  [("id", .num 4), ("title", .str "t"), ("state", .str "opened"),
   ("author", .obj [("username", .str "bob")]),
   ("created_at", .str "c"), ("updated_at", .str "d"),
   ("web_url", .str "w")]

/-- Leaf group B: no subgroups, hint 0. -/
def gnB : GNode := ⟨2, "B", "https://gitlab.example.com/groups/B", .null, .null, 0⟩

/-- Group A: one subgroup, hint 1. -/
def gnA : GNode := ⟨1, "A", "https://gitlab.example.com/groups/A", .null, .null, 1⟩

/-- The tree of group B. -/
def tB : GTree := .node gnB []

/-- The tree of group A with subgroup B. -/
def tA : GTree := .node gnA [tB]

/-- The upstream of the spec's example: `/groups` returns A,
A's subgroups endpoint returns B, everything else is empty. -/
def envEx : String → List RawRecord := fun e =>
  if e = "/groups" then [gtreeRecord tA]
  else if e = groupsEndpoint (some 1) then [gtreeRecord tB]
  else []

/-- The record of a group that lists itself as its own subgroup: id 1,
subgroup-count hint 1. -/
def cycRec : RawRecord := gnodeRecord ⟨1, "A", "u", .null, .null, 1⟩

/-- A cyclic upstream hierarchy: every endpoint (the top level and every
subgroups endpoint) returns group 1 again. -/
def cycEnv : String → List RawRecord := fun _ => [cycRec]

theorem pyBind_ok (a : α) (f : α → Except PyErr β) :
    Bind.bind (Except.ok a) f = f a := rfl

theorem pyBind_error (e : PyErr) (f : α → Except PyErr β) :
    Bind.bind (Except.error e) f = Except.error e := rfl

/-- The fetch loop run against a chained page script, from any intermediate
state: it returns the accumulator extended by every page's records in page
order, pages concatenated in continuation order. -/
theorem rlrLoop_chained (h : Handler) (e : String) (prms : List (String × String)) :
    ∀ (pages : List Page) (page : Option String) (acc : List RawRecord),
      chainedPages pages = true →
      (rlrLoop h e prms (mkScript pages) page acc).2
        = .ok (acc ++ (pages.map Page.records).flatten) := by
  intro pages
  induction pages with
  | nil => intro page acc hc; simp [chainedPages] at hc
  | cons p rest ih =>
    intro page acc hc
    cases rest with
    | nil =>
      cases hn : p.next with
      | none => simp [mkScript, rlrLoop, isSuccess, hn]
      | some tok =>
        simp only [chainedPages, truthyTok, hn] at hc
        simp only [Bool.not_not, decide_eq_true_eq] at hc
        simp [mkScript, rlrLoop, isSuccess, hn, hc]
    | cons q rest' =>
      simp only [chainedPages, Bool.and_eq_true] at hc
      obtain ⟨h1, h2⟩ := hc
      cases hn : p.next with
      | none => simp [truthyTok, hn] at h1
      | some tok =>
        simp only [truthyTok, hn, Bool.not_eq_true', decide_eq_false_iff_not] at h1
        have hrec := ih (some tok) (acc ++ p.records) h2
        simp only [mkScript, List.map_cons] at hrec ⊢
        rw [rlrLoop]
        simp only [show ((200 : Nat) == 429) = false from rfl, Bool.false_eq_true,
          if_false, isSuccess]
        simp only [show (decide (200 ≤ 200) && decide (200 < 300)) = true from rfl,
          if_true]
        rw [hn]
        simp only [h1, if_false]
        rw [hrec]
        simp [List.append_assoc]

/-- C1: for every sequence of successful pages (each page its records plus an
optional next-page header, every page but the last carrying a truthy token),
`_rate_limited_request` returns the flat list of every page's records exactly
once: records in page order, pages concatenated in continuation order. -/
theorem c1_pagination_flattens (h : Handler) (e : String)
    (prms : List (String × String)) (pages : List Page)
    (hc : chainedPages pages = true) :
    (rateLimitedRequest h e prms (mkScript pages)).2
      = .ok ((pages.map Page.records).flatten) := by
  have hrun := rlrLoop_chained h e prms pages none [] hc
  simpa [rateLimitedRequest] using hrun

/-- C1 witness: the spec's example -- page 1 has two project records and
next-page token "2", page 2 has one record and no token; the fetch returns
the three raw records in order. -/
theorem c1_pagination_flattens_witness :
    chainedPages [⟨[pageRec 1, pageRec 2], some "2"⟩, ⟨[pageRec 3], none⟩] = true
    ∧ (rateLimitedRequest hEx "/projects" [("per_page", "10")]
        (mkScript [⟨[pageRec 1, pageRec 2], some "2"⟩, ⟨[pageRec 3], none⟩])).2
      = .ok [pageRec 1, pageRec 2, pageRec 3] := by
  constructor
  · decide
  · have hres := c1_pagination_flattens hEx "/projects" [("per_page", "10")]
      [⟨[pageRec 1, pageRec 2], some "2"⟩, ⟨[pageRec 3], none⟩] (by decide)
    simpa using hres

/-- C2: a 429 response is fully absorbed: the loop emits the request and a
sleep of the configured cooldown (`rate_limit_period`), then continues with
the same target (same endpoint, page token and params) and the same
already-accumulated records; the outcome is exactly the outcome of the run
without the 429, so no error is ever surfaced for it, and when the retry gets
a 2xx the caller sees only that eventual success. -/
theorem c2_rate_limit_absorbed (h : Handler) (e : String)
    (prms : List (String × String)) (r : Response) (script : List Response)
    (page : Option String) (acc : List RawRecord) (h429 : r.status = 429) :
    rlrLoop h e prms (r :: script) page acc
      = (Event.request e page prms
          :: Event.sleep h.rateLimitPeriod
          :: (rlrLoop h e prms script page acc).1,
         (rlrLoop h e prms script page acc).2) := by
  rw [rlrLoop, h429]
  simp

/-- C2 witness: a 429 followed by a 200 carrying one record -- the caller
gets the record list, with a cooldown sleep of 60 seconds (the configured
period of `hEx`) between the two requests. -/
theorem c2_rate_limit_absorbed_witness :
    (⟨429, [], none⟩ : Response).status = 429
    ∧ rlrLoop hEx "/projects" [] [⟨429, [], none⟩, ⟨200, [pageRec 7], none⟩] none []
      = ([.request "/projects" none [], .sleep 60, .request "/projects" none []],
         .ok [pageRec 7]) := by
  constructor
  · rfl
  · rw [c2_rate_limit_absorbed hEx "/projects" [] ⟨429, [], none⟩
      [⟨200, [pageRec 7], none⟩] none [] rfl]
    rfl

/-- C5 counterexample: with caller params `per_page=10` and a two-page
script, the trace of `_rate_limited_request` contains a follow-up request
(page token "2" in the URL) that still carries the caller-supplied params --
under the claim every follow-up request would carry only the page token, so
no trace event could satisfy `followupWithParams`. -/
theorem c5_counterexample :
    ((rateLimitedRequest hEx "/projects" [("per_page", "10")]
        (mkScript [⟨[], some "2"⟩, ⟨[], none⟩])).1.any followupWithParams) = true := by
  decide

/-- C5 amended: the code passes the same `params` argument to every request
it issues -- the first page and every follow-up page alike (the follow-up URL
additionally carries the page token); caller params are resent, not dropped. -/
theorem c5_amended_params_resent (h : Handler) (e : String)
    (prms : List (String × String)) (script : List Response) :
    ∀ ev ∈ (rateLimitedRequest h e prms script).1,
      ∀ e' pg ps', ev = Event.request e' pg ps' → ps' = prms := by
  suffices haux : ∀ (script : List Response) (page : Option String)
      (acc : List RawRecord), ∀ ev ∈ (rlrLoop h e prms script page acc).1,
      ∀ e' pg ps', ev = Event.request e' pg ps' → ps' = prms by
    exact haux script none []
  intro script
  induction script with
  | nil => intro page acc ev hev; simp [rlrLoop] at hev
  | cons r rest ih =>
    intro page acc ev hev e' pg ps' heq
    rw [rlrLoop] at hev
    by_cases h429 : (r.status == 429) = true
    · rw [if_pos h429] at hev
      simp only [List.mem_cons] at hev
      rcases hev with rfl | rfl | hev
      · cases heq; rfl
      · cases heq
      · exact ih page acc ev hev e' pg ps' heq
    · rw [if_neg h429] at hev
      by_cases hsc : isSuccess r.status = true
      · rw [if_pos hsc] at hev
        cases hn : r.nextPage with
        | none =>
          rw [hn] at hev
          simp only [List.mem_cons, List.not_mem_nil, or_false] at hev
          subst hev; cases heq; rfl
        | some tok =>
          rw [hn] at hev
          by_cases ht : tok = ""
          · simp only [if_pos ht] at hev
            simp only [List.mem_cons, List.not_mem_nil, or_false] at hev
            subst hev; cases heq; rfl
          · simp only [if_neg ht] at hev
            simp only [List.mem_cons] at hev
            rcases hev with rfl | hev
            · cases heq; rfl
            · exact ih (some tok) (acc ++ r.body) ev hev e' pg ps' heq
      · rw [if_neg hsc] at hev
        simp only [List.mem_cons, List.not_mem_nil, or_false] at hev
        subst hev; cases heq; rfl

/-- C5 amended witness: the follow-up request of the two-page run (page
token "2") is in the trace and its params are the caller's `per_page=10`. -/
theorem c5_amended_params_resent_witness :
    Event.request "/projects" (some "2") [("per_page", "10")]
      ∈ (rateLimitedRequest hEx "/projects" [("per_page", "10")]
          (mkScript [⟨[], some "2"⟩, ⟨[], none⟩])).1
    ∧ [("per_page", "10")] = [("per_page", "10")] := by
  refine ⟨by decide, ?_⟩
  exact c5_amended_params_resent hEx "/projects" [("per_page", "10")]
    (mkScript [⟨[], some "2"⟩, ⟨[], none⟩])
    (Event.request "/projects" (some "2") [("per_page", "10")]) (by decide)
    "/projects" (some "2") [("per_page", "10")] rfl

/-- C8: against one fixed upstream (a fixed response script for the flat
fetches, a fixed endpoint environment and recursion budget for the group
enumeration), two invocations of the same fetch operation produce identical
outputs, in content and order. The embedding is stateless because the code
keeps no state across invocations (fresh accumulator per call, no cache), so
determinism holds definitionally. -/
theorem c8_idempotent_fetches (h : Handler) (script : List Response)
    (env : String → List RawRecord) (fuel : Nat) (parent : Option Int) :
    fetchGroups env fuel parent = fetchGroups env fuel parent
    ∧ fetchProjects h script = fetchProjects h script
    ∧ fetchMergeRequests h script = fetchMergeRequests h script
    ∧ fetchIssues h script = fetchIssues h script :=
  ⟨rfl, rfl, rfl, rfl⟩

/-- C9: `GitLabHandler.__init__` raises `ValueError` exactly when the token
is falsy (`None` or empty); with a non-empty token construction succeeds and
yields a handler, which is the only way any fetch operation can be invoked. -/
theorem c9_token_required (apiUrl : String) (token : Option String)
    (rl rlp : Int) :
    (mkGitLabHandler apiUrl token rl rlp = .error .valueError
      ↔ (token = none ∨ token = some ""))
    ∧ (∀ s, s ≠ "" → mkGitLabHandler apiUrl (some s) rl rlp
        = .ok ⟨apiUrl, s, rl, rlp⟩) := by
  constructor
  · cases token with
    | none => simp [mkGitLabHandler]
    | some t =>
      by_cases ht : t = ""
      · subst ht; simp [mkGitLabHandler]
      · simp [mkGitLabHandler, ht]
  · intro s hs
    simp [mkGitLabHandler, hs]

/-- C9 witness: a non-empty token constructs a handler; a missing token is a
`ValueError`. -/
theorem c9_token_required_witness :
    mkGitLabHandler "https://gitlab.example.com" (some "token") 10 60
      = .ok ⟨"https://gitlab.example.com", "token", 10, 60⟩
    ∧ mkGitLabHandler "https://gitlab.example.com" none 10 60
      = .error .valueError := by
  refine ⟨(c9_token_required "https://gitlab.example.com" (some "token") 10 60).2
    "token" (by decide), ?_⟩
  exact (c9_token_required "https://gitlab.example.com" none 10 60).1.mpr (Or.inl rfl)

/-- C10: `"/groups" if not parent_id else ...` tests Python falsiness, so
`parent_id = 0` (like `None`) selects the top-level `/groups` endpoint and
`fetch_groups` behaves identically for the two; only a non-zero, non-`None`
parent selects the subgroups endpoint. -/
theorem c10_parent_zero_top_level (env : String → List RawRecord) (fuel : Nat) :
    groupsEndpoint (some 0) = "/groups"
    ∧ groupsEndpoint none = "/groups"
    ∧ (∀ n : Int, n ≠ 0 →
        groupsEndpoint (some n) = "/groups/" ++ toString n ++ "/subgroups")
    ∧ fetchGroups env fuel (some 0) = fetchGroups env fuel none := by
  refine ⟨rfl, rfl, ?_, ?_⟩
  · intro n hn
    simp [groupsEndpoint, hn]
  · cases fuel with
    | zero => rfl
    | succ m => rfl

/-- C10 witness: a non-zero parent (5) selects its subgroups endpoint. -/
theorem c10_parent_zero_top_level_witness :
    (5 : Int) ≠ 0 ∧ groupsEndpoint (some 5) = "/groups/5/subgroups" := by
  refine ⟨by decide, ?_⟩
  have hend := (c10_parent_zero_top_level (fun _ => []) 0).2.2.1 5 (by decide)
  rw [hend]
  rfl

/-- A comprehension with a failing element yields an error (never a partial
list). -/
theorem mapExcept_error_of_mem (f : α → Except PyErr β) :
    ∀ (l : List α), (∃ a ∈ l, (f a).isOk = false) →
      ∃ err, mapExcept f l = .error err := by
  intro l
  induction l with
  | nil => rintro ⟨a, ha, _⟩; simp at ha
  | cons x xs ih =>
    rintro ⟨a, ha, hfa⟩
    rcases List.mem_cons.mp ha with rfl | ha'
    · cases hfx : f a with
      | error err => exact ⟨err, by rw [mapExcept, hfx, pyBind_error]⟩
      | ok b => rw [hfx] at hfa; simp [Except.isOk, Except.toBool] at hfa
    · cases hfx : f x with
      | error err => exact ⟨err, by rw [mapExcept, hfx, pyBind_error]⟩
      | ok b =>
        obtain ⟨err, herr⟩ := ih ⟨a, ha', hfa⟩
        exact ⟨err, by rw [mapExcept, hfx, pyBind_ok, herr, pyBind_error]⟩

/-- A comprehension in which every element maps returns the full mapped
list, one output per input record. -/
theorem mapExcept_ok_of_all (f : α → Except PyErr β) (d : β) :
    ∀ (l : List α), (∀ a ∈ l, (f a).isOk = true) →
      mapExcept f l = .ok (l.map fun a => ((f a).toOption).getD d) := by
  intro l
  induction l with
  | nil => intro _; rfl
  | cons x xs ih =>
    intro hall
    have hx := hall x (List.mem_cons_self x xs)
    cases hfx : f x with
    | error err => rw [hfx] at hx; simp [Except.isOk, Except.toBool] at hx
    | ok b =>
      have hrest := ih fun a ha => hall a (List.mem_cons_of_mem _ ha)
      rw [mapExcept, hfx, pyBind_ok, hrest, pyBind_ok]
      simp only [List.map_cons, hfx, Except.toOption, Option.getD_some]
      rfl

/-- C4: batch normalization is all-or-nothing. If some record of the batch
fails to normalize (e.g. a merge request with no `author`: its required
`mr["author"]` access raises), the whole comprehension fails with an error
and no partial list is returned; if every record normalizes, the batch maps
to exactly one canonical record per raw record. Stated for the
merge-request and the project normalizers. -/
theorem c4_batch_all_or_nothing (batch : List RawRecord) :
    ((∃ r ∈ batch, (canonMergeRequest r).isOk = false) →
      ∃ err, normalizeMergeRequests batch = .error err)
    ∧ ((∀ r ∈ batch, (canonMergeRequest r).isOk = true) →
      normalizeMergeRequests batch
        = .ok (batch.map fun r => ((canonMergeRequest r).toOption).getD []))
    ∧ ((∃ r ∈ batch, (canonProject r).isOk = false) →
      ∃ err, normalizeProjects batch = .error err)
    ∧ ((∀ r ∈ batch, (canonProject r).isOk = true) →
      normalizeProjects batch
        = .ok (batch.map fun r => ((canonProject r).toOption).getD [])) :=
  ⟨mapExcept_error_of_mem canonMergeRequest batch,
   mapExcept_ok_of_all canonMergeRequest [] batch,
   mapExcept_error_of_mem canonProject batch,
   mapExcept_ok_of_all canonProject [] batch⟩

/-- C4 witness: the spec's example. A batch containing a merge request with
no `author` fails as a whole (the failing access is the `author` key), while
the batch of the well-formed record maps every record. -/
theorem c4_batch_all_or_nothing_witness :
    canonMergeRequest mrNoAuthor = .error (.keyError "author")
    ∧ (∃ err, normalizeMergeRequests [mrOk, mrNoAuthor] = .error err)
    ∧ normalizeMergeRequests [mrOk]
      = .ok ([mrOk].map fun r => ((canonMergeRequest r).toOption).getD []) := by
  refine ⟨rfl, ?_, ?_⟩
  · exact (c4_batch_all_or_nothing [mrOk, mrNoAuthor]).1
      ⟨mrNoAuthor, List.mem_cons_of_mem _ (List.mem_cons_self _ _), rfl⟩
  · refine (c4_batch_all_or_nothing [mrOk]).2.1 ?_
    intro r hr
    rw [List.mem_singleton] at hr
    subst hr
    rfl

/-- C6 counterexample: a project record carrying every required field of the
mapping table (`id`, `name`, `url`) but missing the optional `description`
makes normalization fail with a `KeyError` instead of succeeding with a
"no value" marker: `fetch_projects` reads `project["description"]`, not
`project.get("description")`. -/
theorem c6_counterexample :
    canonProject projNoDesc = .error (.keyError "description") := rfl

/-- C6 amended: optional fields read with `.get` do map to an explicit
marker when absent -- `None` (JSON null) for Group `description`/`visibility`,
Project `namespace.full_path`, MergeRequest `mergedAt` and Issue `closedAt`,
and an explicit empty list for MergeRequest `reviewers` and Issue `labels`.
The exception is Project `description`, which the code reads as if required:
it must be present (its value, possibly null, is then passed through). -/
theorem c6_amended_optional_markers :
    (∀ (r : RawRecord) (iv nv uv : JValue),
      List.lookup "id" r = some iv → List.lookup "name" r = some nv →
      List.lookup "web_url" r = some uv →
      List.lookup "description" r = none → List.lookup "visibility" r = none →
      canonGroup r = .ok [("identifier", iv), ("name", nv), ("url", uv),
        ("description", .null), ("visibility", .null)])
    ∧ (∀ (r : RawRecord) (iv nv uv dv : JValue),
      List.lookup "id" r = some iv → List.lookup "name" r = some nv →
      List.lookup "web_url" r = some uv →
      List.lookup "description" r = some dv →
      List.lookup "namespace" r = none →
      canonProject r = .ok [("identifier", iv), ("name", nv), ("url", uv),
        ("description", dv), ("namespace", .null)])
    ∧ (∀ (r : RawRecord) (iv tv sv cv uv lv av : JValue)
        (ao : List (String × JValue)),
      List.lookup "id" r = some iv → List.lookup "title" r = some tv →
      List.lookup "state" r = some sv →
      List.lookup "author" r = some (.obj ao) →
      List.lookup "username" ao = some av →
      List.lookup "created_at" r = some cv →
      List.lookup "updated_at" r = some uv →
      List.lookup "web_url" r = some lv →
      List.lookup "merged_at" r = none → List.lookup "reviewers" r = none →
      canonMergeRequest r = .ok [("identifier", iv), ("title", tv),
        ("status", sv), ("author", av), ("createdAt", cv), ("updatedAt", uv),
        ("mergedAt", .null), ("link", lv), ("reviewers", .arr [])])
    ∧ (∀ (r : RawRecord) (iv tv sv cv uv lv av : JValue)
        (ao : List (String × JValue)),
      List.lookup "id" r = some iv → List.lookup "title" r = some tv →
      List.lookup "state" r = some sv →
      List.lookup "author" r = some (.obj ao) →
      List.lookup "username" ao = some av →
      List.lookup "created_at" r = some cv →
      List.lookup "updated_at" r = some uv →
      List.lookup "web_url" r = some lv →
      List.lookup "closed_at" r = none → List.lookup "labels" r = none →
      canonIssue r = .ok [("identifier", iv), ("title", tv),
        ("status", sv), ("author", av), ("createdAt", cv), ("updatedAt", uv),
        ("closedAt", .null), ("link", lv), ("labels", .arr [])]) := by
  refine ⟨?_, ?_, ?_, ?_⟩
  · intro r iv nv uv h1 h2 h3 h4 h5
    simp [canonGroup, pyIndex, pyGet, h1, h2, h3, h4, h5, pyBind_ok]
  · intro r iv nv uv dv h1 h2 h3 h4 h5
    simp [canonProject, pyIndex, h1, h2, h3, h4, h5, pyBind_ok]
  · intro r iv tv sv cv uv lv av ao h1 h2 h3 h4 h5 h6 h7 h8 h9 h10
    simp [canonMergeRequest, pyIndex, pyGet, h1, h2, h3, h4, h5, h6, h7, h8,
      h9, h10, mapExcept, pyBind_ok]
  · intro r iv tv sv cv uv lv av ao h1 h2 h3 h4 h5 h6 h7 h8 h9 h10
    simp [canonIssue, pyIndex, pyGet, h1, h2, h3, h4, h5, h6, h7, h8, h9, h10, pyBind_ok]

/-- C6 amended witness: concrete records of each kind carrying required
fields only (the project one also carries the required-in-code null
`description`) normalize to canonical dicts with explicit markers. -/
theorem c6_amended_optional_markers_witness :
    canonGroup grpNoOpt = .ok [("identifier", .num 1), ("name", .str "grp"),
      ("url", .str "https://gitlab.example.com/grp"),
      ("description", .null), ("visibility", .null)]
    ∧ canonProject projWithDesc = .ok [("identifier", .num 2),
      ("name", .str "proj2"), ("url", .str "https://gitlab.example.com/proj2"),
      ("description", .null), ("namespace", .null)]
    ∧ canonMergeRequest mrNoOpt = .ok [("identifier", .num 3),
      ("title", .str "t"), ("status", .str "opened"), ("author", .str "alice"),
      ("createdAt", .str "c"), ("updatedAt", .str "d"),
      ("mergedAt", .null), ("link", .str "w"), ("reviewers", .arr [])]
    ∧ canonIssue issNoOpt = .ok [("identifier", .num 4),
      ("title", .str "t"), ("status", .str "opened"), ("author", .str "bob"),
      ("createdAt", .str "c"), ("updatedAt", .str "d"),
      ("closedAt", .null), ("link", .str "w"), ("labels", .arr [])] :=
  ⟨c6_amended_optional_markers.1 grpNoOpt _ _ _ rfl rfl rfl rfl rfl,
   c6_amended_optional_markers.2.1 projWithDesc _ _ _ _ rfl rfl rfl rfl rfl,
   c6_amended_optional_markers.2.2.1 mrNoOpt _ _ _ _ _ _ _ _
     rfl rfl rfl rfl rfl rfl rfl rfl rfl rfl,
   c6_amended_optional_markers.2.2.2 issNoOpt _ _ _ _ _ _ _ _
     rfl rfl rfl rfl rfl rfl rfl rfl rfl rfl⟩

theorem pyPure_eq (a : α) : (Pure.pure a : Except PyErr α) = Except.ok a := rfl

theorem canonGroup_gnode (g : GNode) :
    canonGroup (gnodeRecord g) = .ok (canonOfNode g) := rfl

theorem subgroupHint_gnode (g : GNode) :
    subgroupHint (gnodeRecord g) = .ok g.subgroupCount := rfl

theorem pyIndex_id_gnode (g : GNode) :
    pyIndex (gnodeRecord g) "id" = .ok (.num g.id) := rfl

theorem mem_forestSubtrees_cons (x t : GTree) (ts : List GTree) :
    x ∈ forestSubtrees (t :: ts)
      ↔ x = t ∨ x ∈ forestSubtrees t.children ∨ x ∈ forestSubtrees ts := by
  obtain ⟨g, cs⟩ := t
  simp [forestSubtrees, treeSubtrees, GTree.children, List.mem_append]

theorem forestDepth_cons (t : GTree) (ts : List GTree) :
    forestDepth (t :: ts) = max (treeDepth t) (forestDepth ts) := by
  simp [forestDepth]

/-- The `for group in data:` loop of `fetch_groups`, fed the records of a
forest whose subgroup endpoints `env` serves, returns exactly the spec's
pre-order flattening of the forest, provided the recursion budget covers the
forest's depth. -/
theorem groupsLoop_spec (env : String → List RawRecord) :
    ∀ (n : Nat) (ts : List GTree),
      (∀ t ∈ forestSubtrees ts, 0 < t.info.subgroupCount →
        env (groupsEndpoint (some t.info.id)) = t.children.map gtreeRecord) →
      forestDepth ts ≤ n →
      groupsLoop (fun k => fetchGroups env n (some k)) (ts.map gtreeRecord)
        = .ok (specPreorderForest ts) := by
  intro n
  induction n using Nat.strong_induction_on with
  | _ n IH =>
    intro ts
    induction ts with
    | nil => intro _ _; rfl
    | cons t ts' ihts =>
      intro henv hdep
      obtain ⟨g, cs⟩ := t
      have hmemt : GTree.node g cs ∈ forestSubtrees (GTree.node g cs :: ts') :=
        (mem_forestSubtrees_cons _ _ _).mpr (Or.inl rfl)
      have henvc : ∀ x ∈ forestSubtrees cs, 0 < x.info.subgroupCount →
          env (groupsEndpoint (some x.info.id)) = x.children.map gtreeRecord :=
        fun x hx hp =>
          henv x ((mem_forestSubtrees_cons x (GTree.node g cs) ts').mpr
            (Or.inr (Or.inl hx))) hp
      have henvr : ∀ x ∈ forestSubtrees ts', 0 < x.info.subgroupCount →
          env (groupsEndpoint (some x.info.id)) = x.children.map gtreeRecord :=
        fun x hx hp =>
          henv x ((mem_forestSubtrees_cons x (GTree.node g cs) ts').mpr
            (Or.inr (Or.inr hx))) hp
      have hd1 : forestDepth cs + 1 ≤ n := by
        rw [forestDepth_cons] at hdep
        exact le_trans (le_max_left _ _) hdep
      have hd2 : forestDepth ts' ≤ n := by
        rw [forestDepth_cons] at hdep
        exact le_trans (le_max_right _ _) hdep
      rw [List.map_cons]
      rw [groupsLoop]
      rw [show gtreeRecord (GTree.node g cs) = gnodeRecord g from rfl]
      simp only [canonGroup_gnode, subgroupHint_gnode, pyBind_ok]
      by_cases hpos : 0 < g.subgroupCount
      · simp only [if_pos hpos, pyIndex_id_gnode, pyBind_ok]
        obtain ⟨m, rfl⟩ : ∃ m, n = m + 1 := ⟨n - 1, by omega⟩
        rw [fetchGroups]
        have henvt := henv (GTree.node g cs) hmemt hpos
        simp only [GTree.info, GTree.children] at henvt
        rw [henvt]
        rw [IH m (by omega) cs henvc (by omega)]
        simp only [pyBind_ok]
        rw [ihts henvr hd2]
        simp only [pyBind_ok, pyPure_eq]
        simp [specPreorderForest, specPreorderTree, hpos]
      · simp only [if_neg hpos, pyPure_eq, pyBind_ok]
        rw [ihts henvr hd2]
        simp only [pyBind_ok, pyPure_eq]
        simp [specPreorderForest, specPreorderTree, hpos]

/-- C3: for every group hierarchy the upstream serves (top level `/groups`
returns the roots' records; for every group in the hierarchy whose
subgroup-count hint is positive, its `/groups/.../subgroups` endpoint returns
its subgroup records), `fetch_groups()` returns the depth-first pre-order
flattening: each group's canonical record strictly precedes the records of
all of its descendant subgroups, and a group's subgroups endpoint is
consulted only when its hint is positive -- both facts are the shape of
`specPreorderForest`. The recursion budget need only exceed the depth. -/
theorem c3_preorder_enumeration (env : String → List RawRecord)
    (f : List GTree) (fuel : Nat)
    (hroot : env "/groups" = f.map gtreeRecord)
    (henv : ∀ t ∈ forestSubtrees f, 0 < t.info.subgroupCount →
      env (groupsEndpoint (some t.info.id)) = t.children.map gtreeRecord)
    (hfuel : forestDepth f < fuel) :
    fetchGroups env fuel none = .ok (specPreorderForest f) := by
  obtain ⟨m, rfl⟩ : ∃ m, fuel = m + 1 := ⟨fuel - 1, by omega⟩
  rw [fetchGroups]
  rw [show groupsEndpoint none = "/groups" from rfl, hroot]
  exact groupsLoop_spec env m f henv (by omega)

/-- C3 witness: the spec's example -- group A (hint 1) whose subgroups
endpoint returns group B (hint 0) enumerates to [A, B] in that order. -/
theorem c3_preorder_enumeration_witness :
    fetchGroups envEx 3 none = .ok (specPreorderForest [tA])
    ∧ specPreorderForest [tA] = [canonOfNode gnA, canonOfNode gnB] := by
  constructor
  · apply c3_preorder_enumeration envEx [tA] 3
    · rfl
    · intro t ht hp
      rw [show forestSubtrees [tA] = [tA, tB] from rfl] at ht
      rcases List.mem_cons.mp ht with rfl | ht'
      · rfl
      · rw [List.mem_singleton] at ht'
        subst ht'
        simp [tB, gnB, GTree.info] at hp
    · rw [show forestDepth [tA] = 2 from rfl]
      omega
  · rfl

/-- C7: on a cyclic hierarchy (group 1's subgroups endpoint returns group 1
again) `fetch_groups` exhausts every recursion budget: whatever the
interpreter's recursion limit, the call ends in `RecursionError`. The code
has no configurable maximum depth and no `DepthExceeded` condition -- nothing
in `PyErr` or the code corresponds to one. -/
theorem c7_cycle_exhausts_any_budget :
    ∀ (n : Nat) (p : Option Int),
      fetchGroups cycEnv n p = .error .recursionError := by
  intro n
  induction n with
  | zero => intro p; rfl
  | succ m ih =>
    intro p
    rw [fetchGroups]
    rw [show cycEnv (groupsEndpoint p) = [cycRec] from rfl]
    rw [groupsLoop]
    rw [show canonGroup cycRec = .ok (canonOfNode ⟨1, "A", "u", .null, .null, 1⟩) from rfl]
    simp only [pyBind_ok]
    rw [show subgroupHint cycRec = .ok 1 from rfl]
    simp only [pyBind_ok]
    rw [if_pos (by omega : (0 : Int) < 1)]
    rw [show pyIndex cycRec "id" = .ok (.num 1) from rfl]
    simp only [pyBind_ok]
    rw [ih (some 1)]
    simp only [pyBind_error]
